import Mathlib

/-!
Shallow embedding of `src/netbsd/NetBSDProcessList.c` (htop's NetBSD
process/CPU/memory sampler) and proofs about it.

Machine integers: the kernel tick counters are `u_int64_t`; we model their
values as `Nat`, applying `% 2^64` exactly where the C code performs
arithmetic that can wrap (sums of counters).  Memory page counts
(`struct uvmexp_sysctl`, signed 64-bit) are modelled as `Int`.  C `double`
arithmetic is modelled over `ℚ` (exact rationals).
-/

/-- Modulus of C `unsigned long long` / `u_int64_t` arithmetic. -/
def u64Mod : Nat := 18446744073709551616

/-- One per-core sample of the five cumulative kernel tick counters,
indexed in the source by `CP_USER`, `CP_NICE`, `CP_SYS`, `CP_INTR`,
`CP_IDLE` (`CPUSTATES = 5`). -/
structure CPUTimes where
  user : Nat
  nice : Nat
  sys : Nat
  intr : Nat
  idle : Nat
deriving DecidableEq, Repr

/-- The per-core state `CPUData` (cumulative counters plus derived
periods), as read and written by `kernelCPUTimesToHtop`. -/
structure CPUData where
  totalTime : Nat := 0
  userTime : Nat := 0
  niceTime : Nat := 0
  sysTime : Nat := 0
  sysAllTime : Nat := 0
  intrTime : Nat := 0
  idleTime : Nat := 0
  totalPeriod : Nat := 0
  userPeriod : Nat := 0
  nicePeriod : Nat := 0
  sysPeriod : Nat := 0
  sysAllPeriod : Nat := 0
  intrPeriod : Nat := 0
  idlePeriod : Nat := 0
deriving DecidableEq, Repr

/-- `saturatingSub(a, b) = a > b ? a - b : 0` on `unsigned long long`. -/
def saturatingSub (a b : Nat) : Nat :=
  if a > b then a - b else 0

/-- `kernelCPUTimesToHtop`: fold one new cumulative sample into a core's
`CPUData`, deriving the saturating period deltas.  `totalTime` is the
wrapping 64-bit sum of the five counters; `sysAllTime` the wrapping sum
of the interrupt and sys counters. -/
def kernelCPUTimesToHtop (times : CPUTimes) (cpu : CPUData) : CPUData :=
  let totalTime := (times.user + times.nice + times.sys + times.intr + times.idle) % u64Mod
  let sysAllTime := (times.intr + times.sys) % u64Mod
  { totalTime := totalTime
    userTime := times.user
    niceTime := times.nice
    sysTime := times.sys
    sysAllTime := sysAllTime
    intrTime := times.intr
    idleTime := times.idle
    totalPeriod := saturatingSub totalTime cpu.totalTime
    userPeriod := saturatingSub times.user cpu.userTime
    nicePeriod := saturatingSub times.nice cpu.niceTime
    sysPeriod := saturatingSub times.sys cpu.sysTime
    sysAllPeriod := saturatingSub sysAllTime cpu.sysAllTime
    intrPeriod := saturatingSub times.intr cpu.intrTime
    idlePeriod := saturatingSub times.idle cpu.idleTime }

/-- Running accumulator for the `avg[]` array of
`NetBSDProcessList_scanCPUTime` (five `u_int64_t` cells). -/
structure AvgAcc where
  user : Nat
  nice : Nat
  sys : Nat
  intr : Nat
  idle : Nat
deriving DecidableEq, Repr

/-- The per-core loop of `NetBSDProcessList_scanCPUTime`: update each real
core's `CPUData` from its sample and accumulate the freshly stored
cumulative counters into the `avg[]` cells (wrapping 64-bit addition). -/
def scanLoop : List (CPUTimes × CPUData) → AvgAcc → List CPUData × AvgAcc
  | [], acc => ([], acc)
  | (t, c) :: rest, acc =>
    let c' := kernelCPUTimesToHtop t c
    let acc' : AvgAcc :=
      { user := (acc.user + c'.userTime) % u64Mod
        nice := (acc.nice + c'.niceTime) % u64Mod
        sys := (acc.sys + c'.sysTime) % u64Mod
        intr := (acc.intr + c'.intrTime) % u64Mod
        idle := (acc.idle + c'.idleTime) % u64Mod }
    let r := scanLoop rest acc'
    (c' :: r.1, r.2)

/-- `NetBSDProcessList_scanCPUTime`: update every real core, then divide
each accumulated cumulative counter by the core count (integer division)
and feed the averaged sample to `kernelCPUTimesToHtop` for the aggregate
slot.  `times` holds one sample per real core; the divisor is the core
count, i.e. `times.length`. -/
def scanCPUTime (times : List CPUTimes) (agg : CPUData) (cores : List CPUData) :
    CPUData × List CPUData :=
  let r := scanLoop (times.zip cores) ⟨0, 0, 0, 0, 0⟩
  let n := times.length
  let avg : CPUTimes :=
    ⟨r.2.user / n, r.2.nice / n, r.2.sys / n, r.2.intr / n, r.2.idle / n⟩
  (kernelCPUTimesToHtop avg agg, r.1)

/-- Specification-level description of the averaged cumulative sample fed
to the aggregate slot: each of the five cumulative counters summed over
all real cores (wrapping 64-bit addition) and divided by the core count
with truncation. -/
def avgTimes (times : List CPUTimes) : CPUTimes :=
  let n := times.length
  ⟨((times.map CPUTimes.user).sum % u64Mod) / n,
   ((times.map CPUTimes.nice).sum % u64Mod) / n,
   ((times.map CPUTimes.sys).sum % u64Mod) / n,
   ((times.map CPUTimes.intr).sum % u64Mod) / n,
   ((times.map CPUTimes.idle).sum % u64Mod) / n⟩

lemma saturatingSub_eq_sub (a b : Nat) : saturatingSub a b = a - b := by
  unfold saturatingSub
  split <;> omega

lemma saturatingSub_cast (a b : Nat) :
    (saturatingSub a b : ℤ) = max ((a : ℤ) - b) 0 := by
  rw [saturatingSub_eq_sub]
  rcases Nat.le_total a b with h | h
  · rw [Nat.sub_eq_zero_of_le h]
    have : (a : ℤ) ≤ b := by exact_mod_cast h
    simp [max_eq_right, this]
  · rw [Nat.cast_sub h]
    have : (0 : ℤ) ≤ (a : ℤ) - b := by
      have : (b : ℤ) ≤ a := by exact_mod_cast h
      omega
    omega

lemma scanLoop_fst (ts : List CPUTimes) (cs : List CPUData) (acc : AvgAcc) :
    (scanLoop (ts.zip cs) acc).1 = List.zipWith kernelCPUTimesToHtop ts cs := by
  induction ts generalizing cs acc with
  | nil => simp [scanLoop]
  | cons t rest ih =>
    cases cs with
    | nil => simp [scanLoop]
    | cons c cs' =>
      have hz : (t :: rest).zip (c :: cs') = (t, c) :: rest.zip cs' := rfl
      rw [hz]
      simp only [scanLoop, List.zipWith_cons_cons]
      exact congrArg (List.cons _) (ih cs' _)

lemma scanLoop_acc (l : List (CPUTimes × CPUData)) (acc : AvgAcc)
    (hu : acc.user < u64Mod) (hn : acc.nice < u64Mod) (hs : acc.sys < u64Mod)
    (hi : acc.intr < u64Mod) (hd : acc.idle < u64Mod) :
    (scanLoop l acc).2.user = (acc.user + (l.map (fun p => p.1.user)).sum) % u64Mod ∧
    (scanLoop l acc).2.nice = (acc.nice + (l.map (fun p => p.1.nice)).sum) % u64Mod ∧
    (scanLoop l acc).2.sys = (acc.sys + (l.map (fun p => p.1.sys)).sum) % u64Mod ∧
    (scanLoop l acc).2.intr = (acc.intr + (l.map (fun p => p.1.intr)).sum) % u64Mod ∧
    (scanLoop l acc).2.idle = (acc.idle + (l.map (fun p => p.1.idle)).sum) % u64Mod := by
  induction l generalizing acc with
  | nil =>
    simp [scanLoop]
    exact ⟨(Nat.mod_eq_of_lt hu).symm, (Nat.mod_eq_of_lt hn).symm,
      (Nat.mod_eq_of_lt hs).symm, (Nat.mod_eq_of_lt hi).symm,
      (Nat.mod_eq_of_lt hd).symm⟩
  | cons p rest ih =>
    have hpos : 0 < u64Mod := by decide
    have h := ih
      ⟨(acc.user + p.1.user) % u64Mod, (acc.nice + p.1.nice) % u64Mod,
       (acc.sys + p.1.sys) % u64Mod, (acc.intr + p.1.intr) % u64Mod,
       (acc.idle + p.1.idle) % u64Mod⟩
      (Nat.mod_lt _ hpos) (Nat.mod_lt _ hpos) (Nat.mod_lt _ hpos)
      (Nat.mod_lt _ hpos) (Nat.mod_lt _ hpos)
    simpa [scanLoop, kernelCPUTimesToHtop, Nat.mod_add_mod, Nat.add_assoc] using h

/-- Auxiliary: mapping the first projection's counters over a zip with
equal lengths recovers the counters of the sample list. -/
lemma zip_map_counter (ts : List CPUTimes) (cs : List CPUData)
    (f : CPUTimes → Nat) (h : ts.length = cs.length) :
    ((ts.zip cs).map (fun p => f p.1)).sum = (ts.map f).sum := by
  induction ts generalizing cs with
  | nil => simp
  | cons t rest ih =>
    cases cs with
    | nil => simp at h
    | cons c cs' =>
      simp only [List.zip_cons_cons, List.map_cons, List.sum_cons]
      rw [ih cs' (by simpa using h)]

/-- Sample used in the spec's worked aggregate-averaging example: four
cores whose cumulative user tick counters are 100, 200, 300, 400. -/
def demoTicks : List CPUTimes :=
  [⟨100, 0, 0, 0, 0⟩, ⟨200, 0, 0, 0, 0⟩, ⟨300, 0, 0, 0, 0⟩, ⟨400, 0, 0, 0, 0⟩]

/-- C1: the aggregate slot (index 0) is computed by first averaging each
cumulative counter across all real cores with integer truncation
(`avgTimes`) and then running the ordinary saturating-difference update
(`kernelCPUTimesToHtop`) of the aggregate slot on that averaged sample —
averaging before differencing; in particular on four cores with
cumulative user ticks 100, 200, 300, 400 the averaged cumulative user
value fed to differencing is 250. -/
theorem scanCPUTime_avg_before_diff (times : List CPUTimes) (agg : CPUData)
    (cores : List CPUData) (h : times.length = cores.length) :
    scanCPUTime times agg cores =
      (kernelCPUTimesToHtop (avgTimes times) agg,
       List.zipWith kernelCPUTimesToHtop times cores) ∧
    (avgTimes demoTicks).user = 250 := by
  constructor
  · have hacc := scanLoop_acc (times.zip cores) ⟨0, 0, 0, 0, 0⟩
      (by decide) (by decide) (by decide) (by decide) (by decide)
    obtain ⟨h1, h2, h3, h4, h5⟩ := hacc
    unfold scanCPUTime
    refine Prod.ext ?_ ?_
    · show kernelCPUTimesToHtop _ agg = kernelCPUTimesToHtop (avgTimes times) agg
      congr 1
      unfold avgTimes
      simp only [h1, h2, h3, h4, h5, Nat.zero_add,
        zip_map_counter times cores _ h]
    · exact scanLoop_fst times cores _
  · rfl

theorem scanCPUTime_avg_before_diff_witness :
    scanCPUTime demoTicks {} (List.replicate 4 {}) =
      (kernelCPUTimesToHtop (avgTimes demoTicks) {},
       List.zipWith kernelCPUTimesToHtop demoTicks (List.replicate 4 {})) ∧
    (avgTimes demoTicks).user = 250 :=
  scanCPUTime_avg_before_diff demoTicks {} (List.replicate 4 {}) rfl

/-- Previous-cycle state used in the C2 counterexample: the core has seen
one sample with cumulative counters (10, 0, 0, 0, 0). -/
def c2prev : CPUData := kernelCPUTimesToHtop ⟨10, 0, 0, 0, 0⟩ {}

/-- New state used in the C2 counterexample: the next sample is
(0, 5, 0, 0, 0), i.e. the user counter decreased while nice increased. -/
def c2new : CPUData := kernelCPUTimesToHtop ⟨0, 5, 0, 0, 0⟩ c2prev

/-- C2, counterexample: after a counter decrease the total period (0) is
not the sum of the five per-state saturating deltas (5). -/
theorem c2_total_ne_sum_deltas :
    c2new.totalPeriod ≠
      c2new.userPeriod + c2new.nicePeriod + c2new.sysPeriod +
        c2new.intrPeriod + c2new.idlePeriod := by
  decide

/-- C2, amended: each per-state period is the saturating difference
`max(new − previous, 0)` of that state's cumulative counter, and the
total period — itself the saturating difference of the summed counters
against the stored previous total — equals the sum of the five per-state
deltas whenever the stored total is the sum of the stored per-state
counters, the new summed counters do not wrap 64 bits, and no counter
decreased. -/
theorem c2_periods_and_total (t : CPUTimes) (cpu : CPUData) :
    ((kernelCPUTimesToHtop t cpu).userPeriod : ℤ) =
        max ((t.user : ℤ) - cpu.userTime) 0 ∧
    ((kernelCPUTimesToHtop t cpu).nicePeriod : ℤ) =
        max ((t.nice : ℤ) - cpu.niceTime) 0 ∧
    ((kernelCPUTimesToHtop t cpu).sysPeriod : ℤ) =
        max ((t.sys : ℤ) - cpu.sysTime) 0 ∧
    ((kernelCPUTimesToHtop t cpu).intrPeriod : ℤ) =
        max ((t.intr : ℤ) - cpu.intrTime) 0 ∧
    ((kernelCPUTimesToHtop t cpu).idlePeriod : ℤ) =
        max ((t.idle : ℤ) - cpu.idleTime) 0 ∧
    (cpu.totalTime = cpu.userTime + cpu.niceTime + cpu.sysTime +
        cpu.intrTime + cpu.idleTime →
     t.user + t.nice + t.sys + t.intr + t.idle < u64Mod →
     cpu.userTime ≤ t.user → cpu.niceTime ≤ t.nice → cpu.sysTime ≤ t.sys →
     cpu.intrTime ≤ t.intr → cpu.idleTime ≤ t.idle →
     (kernelCPUTimesToHtop t cpu).totalPeriod =
       (kernelCPUTimesToHtop t cpu).userPeriod +
       (kernelCPUTimesToHtop t cpu).nicePeriod +
       (kernelCPUTimesToHtop t cpu).sysPeriod +
       (kernelCPUTimesToHtop t cpu).intrPeriod +
       (kernelCPUTimesToHtop t cpu).idlePeriod) := by
  refine ⟨saturatingSub_cast _ _, saturatingSub_cast _ _, saturatingSub_cast _ _,
    saturatingSub_cast _ _, saturatingSub_cast _ _, ?_⟩
  intro htot hlt h1 h2 h3 h4 h5
  simp only [kernelCPUTimesToHtop, saturatingSub_eq_sub]
  rw [Nat.mod_eq_of_lt hlt]
  omega

/-- Previous-cycle state used in the C2 witness: one sample of
(1, 1, 1, 1, 1), so the stored total (5) is the sum of the stored
per-state counters. -/
def c2wprev : CPUData := kernelCPUTimesToHtop ⟨1, 1, 1, 1, 1⟩ {}

theorem c2_periods_and_total_witness :
    (kernelCPUTimesToHtop ⟨2, 3, 4, 5, 6⟩ c2wprev).totalPeriod =
      (kernelCPUTimesToHtop ⟨2, 3, 4, 5, 6⟩ c2wprev).userPeriod +
      (kernelCPUTimesToHtop ⟨2, 3, 4, 5, 6⟩ c2wprev).nicePeriod +
      (kernelCPUTimesToHtop ⟨2, 3, 4, 5, 6⟩ c2wprev).sysPeriod +
      (kernelCPUTimesToHtop ⟨2, 3, 4, 5, 6⟩ c2wprev).intrPeriod +
      (kernelCPUTimesToHtop ⟨2, 3, 4, 5, 6⟩ c2wprev).idlePeriod :=
  (c2_periods_and_total ⟨2, 3, 4, 5, 6⟩ c2wprev).2.2.2.2.2
    (by decide) (by decide) (by decide) (by decide) (by decide) (by decide)
    (by decide)

/-- C3: every derived period of a core update is nonnegative, and a
cumulative counter that comes back smaller than the stored previous value
(decrease or wraparound) yields a zero delta, never a negative one —
for each of the five states as well as the derived total and
sys+interrupt counters. -/
theorem c3_periods_nonneg (t : CPUTimes) (cpu : CPUData) :
    (0 ≤ ((kernelCPUTimesToHtop t cpu).totalPeriod : ℤ) ∧
     0 ≤ ((kernelCPUTimesToHtop t cpu).userPeriod : ℤ) ∧
     0 ≤ ((kernelCPUTimesToHtop t cpu).nicePeriod : ℤ) ∧
     0 ≤ ((kernelCPUTimesToHtop t cpu).sysPeriod : ℤ) ∧
     0 ≤ ((kernelCPUTimesToHtop t cpu).sysAllPeriod : ℤ) ∧
     0 ≤ ((kernelCPUTimesToHtop t cpu).intrPeriod : ℤ) ∧
     0 ≤ ((kernelCPUTimesToHtop t cpu).idlePeriod : ℤ)) ∧
    (t.user < cpu.userTime → (kernelCPUTimesToHtop t cpu).userPeriod = 0) ∧
    (t.nice < cpu.niceTime → (kernelCPUTimesToHtop t cpu).nicePeriod = 0) ∧
    (t.sys < cpu.sysTime → (kernelCPUTimesToHtop t cpu).sysPeriod = 0) ∧
    (t.intr < cpu.intrTime → (kernelCPUTimesToHtop t cpu).intrPeriod = 0) ∧
    (t.idle < cpu.idleTime → (kernelCPUTimesToHtop t cpu).idlePeriod = 0) ∧
    ((t.user + t.nice + t.sys + t.intr + t.idle) % u64Mod < cpu.totalTime →
      (kernelCPUTimesToHtop t cpu).totalPeriod = 0) ∧
    ((t.intr + t.sys) % u64Mod < cpu.sysAllTime →
      (kernelCPUTimesToHtop t cpu).sysAllPeriod = 0) := by
  simp only [kernelCPUTimesToHtop, saturatingSub_eq_sub]
  refine ⟨⟨?_, ?_, ?_, ?_, ?_, ?_, ?_⟩, ?_, ?_, ?_, ?_, ?_, ?_, ?_⟩ <;>
    first
      | exact Int.natCast_nonneg _
      | omega

/-- Previous-cycle state used in the C3 witness: every stored cumulative
counter is positive, so an all-zero next sample decreases all of them. -/
def c3prev : CPUData :=
  { totalTime := 9, userTime := 1, niceTime := 1, sysTime := 1,
    sysAllTime := 2, intrTime := 1, idleTime := 1 }

theorem c3_periods_nonneg_witness :
    (kernelCPUTimesToHtop ⟨0, 0, 0, 0, 0⟩ c3prev).userPeriod = 0 ∧
    (kernelCPUTimesToHtop ⟨0, 0, 0, 0, 0⟩ c3prev).nicePeriod = 0 ∧
    (kernelCPUTimesToHtop ⟨0, 0, 0, 0, 0⟩ c3prev).sysPeriod = 0 ∧
    (kernelCPUTimesToHtop ⟨0, 0, 0, 0, 0⟩ c3prev).intrPeriod = 0 ∧
    (kernelCPUTimesToHtop ⟨0, 0, 0, 0, 0⟩ c3prev).idlePeriod = 0 ∧
    (kernelCPUTimesToHtop ⟨0, 0, 0, 0, 0⟩ c3prev).totalPeriod = 0 ∧
    (kernelCPUTimesToHtop ⟨0, 0, 0, 0, 0⟩ c3prev).sysAllPeriod = 0 :=
  ⟨(c3_periods_nonneg ⟨0, 0, 0, 0, 0⟩ c3prev).2.1 (by decide),
   (c3_periods_nonneg ⟨0, 0, 0, 0, 0⟩ c3prev).2.2.1 (by decide),
   (c3_periods_nonneg ⟨0, 0, 0, 0, 0⟩ c3prev).2.2.2.1 (by decide),
   (c3_periods_nonneg ⟨0, 0, 0, 0, 0⟩ c3prev).2.2.2.2.1 (by decide),
   (c3_periods_nonneg ⟨0, 0, 0, 0, 0⟩ c3prev).2.2.2.2.2.1 (by decide),
   (c3_periods_nonneg ⟨0, 0, 0, 0, 0⟩ c3prev).2.2.2.2.2.2.1 (by decide),
   (c3_periods_nonneg ⟨0, 0, 0, 0, 0⟩ c3prev).2.2.2.2.2.2.2 (by decide)⟩

/-- NetBSD LWP (thread) states as tested by the classifier switch
(`LSONPROC`, `LSRUN`, `LSSLEEP`, `LSSTOP` plus the states falling into
its `default` arm). -/
inductive LwpStat where
  | lsidl
  | lsrun
  | lssleep
  | lsstop
  | lszomb
  | lssuspended
  | lsonproc
deriving DecidableEq, Repr

/-- NetBSD coarse process states (`p_realstat`) as tested by the outer
switch of `NetBSDProcessList_scanProcs`. -/
inductive ProcStat where
  | sidl
  | sactive
  | sdying
  | sstop
  | szomb
  | sdead
deriving DecidableEq, Repr

/-- The inner LWP switch: the display character one loop iteration
assigns for a thread state (`default` assigns the unknown marker). -/
def lwpChar (l : LwpStat) : Char :=
  match l with
  | .lsonproc => 'P'
  | .lsrun => 'R'
  | .lssleep => 'S'
  | .lsstop => 'T'
  | _ => '?'

/-- The `SACTIVE` thread loop: each iteration overwrites the state with
its thread's character and stops at the first one that is not the
unknown marker; an empty list leaves the state untouched. -/
def classifyActive (state : Char) : List LwpStat → Char
  | [] => state
  | l :: rest =>
    let s := lwpChar l
    if s ≠ '?' then s else classifyActive '?' rest

/-- The whole state classification of `NetBSDProcessList_scanProcs`:
outer switch on the coarse state; for `SACTIVE` the thread loop runs over
the kernel-reported LWP list (`none` models a failed LWP query, whose
loop body never executes). -/
def classify (state : Char) (realstat : ProcStat) (lwps : Option (List LwpStat)) : Char :=
  match realstat with
  | .sidl => 'I'
  | .sactive =>
    match lwps with
    | none => state
    | some ls => classifyActive state ls
  | .sstop => 'T'
  | .szomb => 'Z'
  | .sdead => 'D'
  | .sdying => '?'

/-- Specification-level category of a single thread state: the four
states the classifier recognises, `none` otherwise. -/
def lwpCat (l : LwpStat) : Option Char :=
  match l with
  | .lsonproc => some 'P'
  | .lsrun => some 'R'
  | .lssleep => some 'S'
  | .lsstop => some 'T'
  | _ => none

/-- Specification-level first-match scan over the thread list in its
given order. -/
def firstLwpCat (ls : List LwpStat) : Option Char :=
  ls.findSome? lwpCat

lemma classifyActive_eq_firstMatch (ls : List LwpStat) (state : Char)
    (h : ls ≠ []) : classifyActive state ls = (firstLwpCat ls).getD '?' := by
  induction ls generalizing state with
  | nil => exact absurd rfl h
  | cons l rest ih =>
    cases rest with
    | nil => cases l <;> rfl
    | cons r rest' =>
      cases l
      case lsonproc => rfl
      case lsrun => rfl
      case lssleep => rfl
      case lsstop => rfl
      all_goals
        exact ih '?' (by simp)

/-- C5, counterexample: an active process whose thread list comes back
empty keeps its previous display state (here runnable) instead of being
classified unknown. -/
theorem c5_active_empty_lwps_keeps_state :
    classify 'R' ProcStat.sactive (some []) ≠ '?' := by
  decide

/-- C5, amended: the classifier maps new/idle to idle, stopped to
stopped, zombie to zombie, dead to dead, and any other non-active coarse
state to unknown; for the active state it scans the threads in their
kernel-reported order and, when the list is non-empty, takes the category
of the first thread whose state is on-processor, runnable, sleeping or
stopped (unknown when no thread matches); when the thread list is empty
or unavailable, the previous display state is kept unchanged. -/
theorem c5_classify_mapping (state : Char) (lwps : Option (List LwpStat))
    (ls : List LwpStat) :
    classify state ProcStat.sidl lwps = 'I' ∧
    classify state ProcStat.sstop lwps = 'T' ∧
    classify state ProcStat.szomb lwps = 'Z' ∧
    classify state ProcStat.sdead lwps = 'D' ∧
    classify state ProcStat.sdying lwps = '?' ∧
    (ls ≠ [] →
      classify state ProcStat.sactive (some ls) = (firstLwpCat ls).getD '?') ∧
    classify state ProcStat.sactive (some []) = state ∧
    classify state ProcStat.sactive none = state := by
  refine ⟨rfl, rfl, rfl, rfl, rfl, ?_, rfl, rfl⟩
  intro h
  exact classifyActive_eq_firstMatch ls state h

theorem c5_classify_mapping_witness :
    classify 'S' ProcStat.sactive (some [LwpStat.lszomb, LwpStat.lsrun]) = 'R' := by
  have h := (c5_classify_mapping 'S' none [LwpStat.lszomb, LwpStat.lsrun]).2.2.2.2.2.1
    (by decide)
  rw [h]
  decide

/-- BSD `strlcat(dst, src, siz)` on NUL-terminated buffers, modelled on
the character list before the NUL: append at most `siz - strlen(dst) - 1`
characters of `src` (none if `dst` already fills the buffer) and return
the length of the string it tried to create. -/
def strlcat (dst src : List Char) (siz : Nat) : List Char × Nat :=
  if dst.length < siz then
    (dst ++ src.take (siz - dst.length - 1), dst.length + src.length)
  else
    (dst, siz + src.length)

/-- Sum of `strlen(arg[i]) + 1` over the argument vector: the byte count
`len` that `NetBSDProcessList_readProcessName` computes and passes to
both `malloc` and every `strlcat` call. -/
def argvLen (args : List (List Char)) : Nat :=
  (args.map (fun a => a.length + 1)).sum

/-- The concatenation loop of `NetBSDProcessList_readProcessName`: for
each argument, `strlcat` the argument then a single space into the
buffer of capacity `len`; on the first argument record the basename
boundary as the returned length clamped to `len - 1`. -/
def buildLoop (len : Nat) : List (List Char) → List Char → Bool → Nat → List Char × Nat
  | [], s, _, b => (s, b)
  | a :: rest, s, first, b =>
    let p := strlcat s a len
    let b' := if first then min p.2 (len - 1) else b
    let q := strlcat p.1 [' '] len
    buildLoop len rest q.1 false b'

/-- `NetBSDProcessList_readProcessName`: fetch the argument vector
(`none` models a NULL return of the bounded kernel query, `some []` an
empty vector); fall back to the kernel short command name when it is
unavailable or empty or when allocating the `argvLen` bytes fails,
otherwise run the concatenation loop on an initially empty buffer. -/
def readProcessName (argv : Option (List (List Char))) (comm : List Char)
    (allocOk : Bool) : List Char × Nat :=
  match argv with
  | none => (comm, comm.length)
  | some [] => (comm, comm.length)
  | some (a :: rest) =>
    if allocOk then buildLoop (argvLen (a :: rest)) (a :: rest) [] true 0
    else (comm, comm.length)

/-- Specification-level join of the arguments with single interior
spaces and no trailing separator. -/
def joinSpace : List (List Char) → List Char
  | [] => []
  | [a] => a
  | a :: rest => a ++ ' ' :: joinSpace rest

lemma strlcat_fits (s src : List Char) (len : Nat)
    (h : s.length + src.length < len) :
    strlcat s src len = (s ++ src, s.length + src.length) := by
  unfold strlcat
  rw [if_pos (by omega)]
  rw [List.take_of_length_le (by omega)]

lemma strlcat_space_trunc (s : List Char) (len : Nat)
    (h : s.length + 1 = len) :
    (strlcat s [' '] len).1 = s := by
  unfold strlcat
  rw [if_pos (by omega)]
  have : len - s.length - 1 = 0 := by omega
  simp [this]

lemma buildLoop_go (len : Nat) (rest : List (List Char)) :
    ∀ (s : List Char) (b : Nat), rest ≠ [] → s.length + argvLen rest = len →
      buildLoop len rest s false b = (s ++ joinSpace rest, b) := by
  induction rest with
  | nil => intro s b h; exact absurd rfl h
  | cons a rest' ih =>
    intro s b _ hlen
    have hA : argvLen (a :: rest') = a.length + 1 + argvLen rest' := by
      simp only [argvLen, List.map_cons, List.sum_cons]
    simp only [buildLoop, Bool.false_eq_true, if_false]
    rw [strlcat_fits s a len (by omega)]
    cases rest' with
    | nil =>
      have h0 : argvLen ([] : List (List Char)) = 0 := rfl
      rw [strlcat_space_trunc (s ++ a) len (by simp; omega)]
      simp [buildLoop, joinSpace]
    | cons x xs =>
      have hx : 1 ≤ argvLen (x :: xs) := by
        simp [argvLen]; omega
      rw [show (strlcat (s ++ a) [' '] len).1 = s ++ a ++ [' '] by
        rw [strlcat_fits (s ++ a) [' '] len (by simp; omega)]]
      rw [ih (s ++ a ++ [' ']) b (by simp) (by simp; omega)]
      simp [joinSpace]

/-- C6, counterexample: for the argument vector `["vim", "-R", "file.txt"]`
the reconstructed name is not `"vim -R file.txt "` with a trailing
separator — the buffer is sized for the string plus its NUL, so the
size-bounded concatenation truncates the final space away. -/
theorem c6_trailing_space_cex :
    readProcessName (some ["vim".data, "-R".data, "file.txt".data]) [] true ≠
      ("vim -R file.txt ".data, 3) := by
  decide

/-- C6, amended: for every non-empty argument vector that is fetched and
allocated, the reconstructed display name is the concatenation of all
arguments separated by single interior spaces with the trailing
separator truncated away by the size-bounded copy, and the basename
boundary is the length of the first argument (its clamp to the buffer
capacity `len - 1` never bites, since the capacity covers the first
argument); in particular for `["vim", "-R", "file.txt"]` the result is
`"vim -R file.txt"` with boundary 3. -/
theorem c6_readProcessName_join (a : List Char) (rest : List (List Char))
    (comm : List Char) :
    readProcessName (some (a :: rest)) comm true =
      (joinSpace (a :: rest), a.length) ∧
    readProcessName (some ["vim".data, "-R".data, "file.txt".data]) [] true =
      ("vim -R file.txt".data, 3) := by
  constructor
  · have hA : argvLen (a :: rest) = a.length + 1 + argvLen rest := by
      simp only [argvLen, List.map_cons, List.sum_cons]
    show buildLoop (argvLen (a :: rest)) (a :: rest) [] true 0 = _
    simp only [buildLoop]
    rw [show strlcat [] a (argvLen (a :: rest)) = ([] ++ a, [].length + a.length) from
      strlcat_fits [] a _ (by simp [hA]; omega)]
    simp only [List.nil_append, List.length_nil, Nat.zero_add, if_pos]
    rw [show min a.length (argvLen (a :: rest) - 1) = a.length by omega]
    cases rest with
    | nil =>
      rw [strlcat_space_trunc a _ (by simp [hA, argvLen])]
      simp [buildLoop, joinSpace]
    | cons x xs =>
      have hx : 1 ≤ argvLen (x :: xs) := by
        simp [argvLen]; omega
      rw [show (strlcat a [' '] (argvLen (a :: x :: xs))).1 = a ++ [' '] by
        rw [strlcat_fits a [' '] _ (by simp only [List.length_cons, List.length_nil]; omega)]]
      rw [buildLoop_go _ (x :: xs) (a ++ [' ']) a.length (by simp) (by simp [hA])]
      simp [joinSpace]
  · decide

/-- C7: when the argument vector is unavailable (`none`) or empty, or
when the reconstruction buffer allocation fails, the reconstructor
returns the kernel short command name with the boundary equal to that
name's length — a total fallback rather than an abort. -/
theorem c7_readProcessName_fallback (comm : List Char) (ok : Bool)
    (args : List (List Char)) :
    readProcessName none comm ok = (comm, comm.length) ∧
    readProcessName (some []) comm ok = (comm, comm.length) ∧
    readProcessName (some args) comm false = (comm, comm.length) := by
  refine ⟨rfl, rfl, ?_⟩
  cases args with
  | nil => rfl
  | cons a rest => simp [readProcessName]

/-- htop's `CLAMP(x, low, high)` macro:
`(x) > (high) ? (high) : ((x) < (low) ? (low) : (x))`, over exact
rationals in place of C doubles. -/
def CLAMP (x lo hi : ℚ) : ℚ :=
  if x > hi then hi else if x < lo then lo else x

/-- `getpcpu`: `100.0 * p_pctcpu / fscale`, returning 0 outright when the
scale factor is 0; C double arithmetic modelled over ℚ. -/
def getpcpu (fscale : ℤ) (pctcpu : Nat) : ℚ :=
  if fscale = 0 then 0 else 100 * (pctcpu : ℚ) / (fscale : ℚ)

/-- The configuration booleans consumed by `NetBSDProcessList_scanProcs`. -/
structure Settings where
  hideKernelThreads : Bool
  hideUserlandThreads : Bool
  updateProcessNames : Bool

/-- NetBSD's scheduling baseline `PZERO` from the system headers
(external to the repository source). -/
def PZERO : ℤ := 22

/-- The fields of one `struct kinfo_proc2` record read by the scan,
together with the answers of the per-process kernel collaborators
(`kvm_getlwps`, `kvm_getargv2`, allocation success, thread-kind tests). -/
structure KProc where
  p_pid : Nat := 0
  p_ppid : Nat := 0
  p_tpgid : Nat := 0
  p_sid : Nat := 0
  p_tdev : Nat := 0
  p_pgid : Nat := 0
  p_uid : Nat := 0
  p_ustart_sec : Nat := 0
  p_vm_vsize : Nat := 0
  p_vm_rssize : Nat := 0
  p_pctcpu : Nat := 0
  p_nlwps : Nat := 0
  p_nice : ℤ := 0
  p_rtime_sec : Nat := 0
  p_rtime_usec : Nat := 0
  p_priority : ℤ := 0
  p_realstat : ProcStat := ProcStat.sactive
  lwps : Option (List LwpStat) := none
  argv : Option (List (List Char)) := none
  p_comm : List Char := []
  allocOk : Bool := true
  isKernelThread : Bool := false
  isUserlandThread : Bool := false

/-- One persistent `Process` record: identity fields set on creation and
volatile fields refreshed every cycle. -/
structure ProcessRecord where
  pid : Nat := 0
  ppid : Nat := 0
  tpgid : Nat := 0
  tgid : Nat := 0
  session : Nat := 0
  tty_nr : Nat := 0
  pgrp : Nat := 0
  st_uid : Nat := 0
  starttime_ctime : Nat := 0
  m_virt : Nat := 0
  m_resident : Nat := 0
  percent_mem : ℚ := 0
  percent_cpu : ℚ := 0
  nlwp : Nat := 0
  nice : ℤ := 0
  time : Nat := 0
  priority : ℤ := 0
  state : Char := Char.ofNat 0
  comm : List Char := []
  basenameOffset : Nat := 0
  show' : Bool := false
  updated : Bool := false
deriving DecidableEq

/-- Identity fields set once on first observation of a process id
(`!preExisting` branch), including the initial display-name
reconstruction. -/
def newRecord (k : KProc) : ProcessRecord :=
  { pid := k.p_pid
    ppid := k.p_ppid
    tpgid := k.p_tpgid
    tgid := k.p_pid
    session := k.p_sid
    tty_nr := k.p_tdev
    pgrp := k.p_pgid
    st_uid := k.p_uid
    starttime_ctime := k.p_ustart_sec
    comm := (readProcessName k.argv k.p_comm k.allocOk).1
    basenameOffset := (readProcessName k.argv k.p_comm k.allocOk).2 }

/-- Name refresh of a pre-existing record, gated on the
`updateProcessNames` setting. -/
def refreshName (settings : Settings) (k : KProc) (p : ProcessRecord) :
    ProcessRecord :=
  if settings.updateProcessNames then
    { p with
      comm := (readProcessName k.argv k.p_comm k.allocOk).1
      basenameOffset := (readProcessName k.argv k.p_comm k.allocOk).2 }
  else p

/-- The volatile per-cycle refresh applied to every scanned record:
visibility, memory sizes and percents, clamped CPU percent, thread
count, zero-centred nice, centisecond CPU time, baselined priority,
classified state, and the updated flag. -/
def updateVolatile (settings : Settings) (fscale : ℤ) (pageSizeKB : ℤ)
    (totalMem : ℤ) (cpuCount : Nat) (k : KProc) (p : ProcessRecord) :
    ProcessRecord :=
  { p with
    show' := !((settings.hideKernelThreads && k.isKernelThread) ||
               (settings.hideUserlandThreads && k.isUserlandThread))
    m_virt := k.p_vm_vsize
    m_resident := k.p_vm_rssize
    percent_mem := ((k.p_vm_rssize : ℚ) * (pageSizeKB : ℚ)) / (totalMem : ℚ) * 100
    percent_cpu := CLAMP (getpcpu fscale k.p_pctcpu) 0 ((cpuCount : ℚ) * 100)
    nlwp := k.p_nlwps
    nice := k.p_nice - 20
    time := 100 * (k.p_rtime_sec + ((k.p_rtime_usec + 500000) / 1000000))
    priority := k.p_priority - PZERO
    state := classify p.state k.p_realstat k.lwps
    updated := true }

/-- The raw `struct uvmexp_sysctl` page counters read by
`NetBSDProcessList_scanMemoryInfo` (signed 64-bit, modelled as ℤ). -/
structure Uvmexp where
  npages : ℤ := 0
  free : ℤ := 0
  paging : ℤ := 0
  filepages : ℤ := 0
  anonpages : ℤ := 0
  execpages : ℤ := 0
  swpages : ℤ := 0
  swpginuse : ℤ := 0

/-- The `ProcessList` state a cycle reads and writes: the memory
snapshot fields, the aggregate slot plus per-core `CPUData`, the
persistent process table and the per-cycle task counters. -/
structure PLState where
  cpuCount : Nat
  totalMem : ℤ := 0
  buffersMem : ℤ := 0
  cachedMem : ℤ := 0
  usedMem : ℤ := 0
  totalSwap : ℤ := 0
  usedSwap : ℤ := 0
  cpus : CPUData × List CPUData
  processes : List ProcessRecord := []
  totalTasks : Nat := 0
  runningTasks : Nat := 0

/-- `NetBSDProcessList_scanMemoryInfo`: overwrite the memory snapshot
from the raw page counters, all scaled by `pageSizeKB`. -/
def scanMemoryInfo (u : Uvmexp) (pageSizeKB : ℤ) (st : PLState) : PLState :=
  let buffersMem := u.filepages * pageSizeKB
  let cachedMem := (u.anonpages + u.filepages + u.execpages) * pageSizeKB
  { st with
    totalMem := u.npages * pageSizeKB
    buffersMem := buffersMem
    cachedMem := cachedMem
    usedMem := (u.npages - u.free - u.paging) * pageSizeKB + buffersMem + cachedMem
    totalSwap := u.swpages * pageSizeKB
    usedSwap := u.swpginuse * pageSizeKB }

/-- One iteration of the `NetBSDProcessList_scanProcs` loop: look the
record up by pid, create-and-register or name-refresh it, apply the
volatile refresh, bump the total-task counter and the running-task
counter when the classified state is on-processor, and mark it updated. -/
def scanProcsStep (settings : Settings) (fscale pageSizeKB : ℤ)
    (st : PLState) (k : KProc) : PLState :=
  match st.processes.find? (fun p => p.pid == k.p_pid) with
  | none =>
    let p := updateVolatile settings fscale pageSizeKB st.totalMem st.cpuCount k
      (newRecord k)
    { st with
      processes := st.processes ++ [p]
      totalTasks := st.totalTasks + 1
      runningTasks := if p.state = 'P' then st.runningTasks + 1 else st.runningTasks }
  | some p0 =>
    let p := updateVolatile settings fscale pageSizeKB st.totalMem st.cpuCount k
      (refreshName settings k p0)
    { st with
      processes := st.processes.map (fun q => if q.pid == k.p_pid then p else q)
      totalTasks := st.totalTasks + 1
      runningTasks := if p.state = 'P' then st.runningTasks + 1 else st.runningTasks }

/-- `NetBSDProcessList_scanProcs`: fold the loop over the kernel-reported
process records in order. -/
def scanProcs (settings : Settings) (fscale pageSizeKB : ℤ)
    (ks : List KProc) (st : PLState) : PLState :=
  ks.foldl (scanProcsStep settings fscale pageSizeKB) st

/-- `NetBSDProcessList_scanCPUTime` as a state step: sample every real
core through the per-core tick query `kt` and update the aggregate slot
and the per-core data. -/
def scanCPUTimeState (kt : Nat → CPUTimes) (st : PLState) : PLState :=
  { st with
    cpus := scanCPUTime ((List.range st.cpuCount).map kt) st.cpus.1 st.cpus.2 }

/-- `ProcessList_goThroughEntries`: one cycle — memory scan, CPU scan,
then (only when not paused) the process scan. -/
def ProcessList_goThroughEntries (settings : Settings) (fscale pageSizeKB : ℤ)
    (u : Uvmexp) (kt : Nat → CPUTimes) (ks : List KProc) (paused : Bool)
    (st : PLState) : PLState :=
  let st1 := scanMemoryInfo u pageSizeKB st
  let st2 := scanCPUTimeState kt st1
  if paused then st2 else scanProcs settings fscale pageSizeKB ks st2

/-- C4: the stored CPU percent of every scanned record is the clamp of
`100 × p_pctcpu / fscale` to the interval from 0 to `cpuCount · 100`;
it lies in that interval for arbitrary fraction and scale inputs, and a
zero scale factor yields 0 rather than a division fault. -/
theorem c4_percent_cpu_clamped (settings : Settings) (fscale : ℤ)
    (pageSizeKB totalMem : ℤ) (cpuCount : Nat) (k : KProc) (p : ProcessRecord) :
    (updateVolatile settings fscale pageSizeKB totalMem cpuCount k p).percent_cpu =
      CLAMP (getpcpu fscale k.p_pctcpu) 0 ((cpuCount : ℚ) * 100) ∧
    0 ≤ (updateVolatile settings fscale pageSizeKB totalMem cpuCount k p).percent_cpu ∧
    (updateVolatile settings fscale pageSizeKB totalMem cpuCount k p).percent_cpu ≤
      (cpuCount : ℚ) * 100 ∧
    (fscale = 0 → getpcpu fscale k.p_pctcpu = 0) := by
  have hhi : (0 : ℚ) ≤ (cpuCount : ℚ) * 100 := by positivity
  refine ⟨rfl, ?_, ?_, ?_⟩
  · show (0 : ℚ) ≤ CLAMP (getpcpu fscale k.p_pctcpu) 0 ((cpuCount : ℚ) * 100)
    unfold CLAMP
    split_ifs with h1 h2
    · exact hhi
    · exact le_refl 0
    · exact not_lt.mp h2
  · show CLAMP (getpcpu fscale k.p_pctcpu) 0 ((cpuCount : ℚ) * 100) ≤ _
    unfold CLAMP
    split_ifs with h1 h2
    · exact le_refl _
    · exact hhi
    · exact not_lt.mp h1
  · intro h
    simp [getpcpu, h]

/-- Concrete process record used by the C4 witness: a raw CPU fraction
of 7 with every other collaborator answer defaulted. -/
def c4k : KProc := { p_pctcpu := 7 }

theorem c4_percent_cpu_clamped_witness : getpcpu 0 c4k.p_pctcpu = 0 :=
  (c4_percent_cpu_clamped ⟨false, false, false⟩ 0 4 1024 2 c4k {}).2.2.2 rfl

/-- C8: a cycle invoked in paused mode equals the memory scan followed
by the CPU scan — the process table and the total-task and running-task
counters are left exactly as they were. -/
theorem c8_paused_frame (settings : Settings) (fscale pageSizeKB : ℤ)
    (u : Uvmexp) (kt : Nat → CPUTimes) (ks : List KProc) (st : PLState) :
    (ProcessList_goThroughEntries settings fscale pageSizeKB u kt ks true st).processes =
      st.processes ∧
    (ProcessList_goThroughEntries settings fscale pageSizeKB u kt ks true st).totalTasks =
      st.totalTasks ∧
    (ProcessList_goThroughEntries settings fscale pageSizeKB u kt ks true st).runningTasks =
      st.runningTasks ∧
    ProcessList_goThroughEntries settings fscale pageSizeKB u kt ks true st =
      scanCPUTimeState kt (scanMemoryInfo u pageSizeKB st) := by
  refine ⟨?_, ?_, ?_, rfl⟩ <;>
    simp [ProcessList_goThroughEntries, scanCPUTimeState, scanMemoryInfo]

/-- C9: the memory snapshot written by the scan satisfies, with every
quantity scaled by the page size factor: buffer memory is the file-backed
pages, cached memory the anonymous plus file-backed plus executable
pages, used memory is total minus free minus paging plus buffers plus
cached, total memory is the total pages, and swap total and used are the
raw swap page counts. -/
theorem c9_memory_formulas (u : Uvmexp) (pageSizeKB : ℤ) (st : PLState) :
    (scanMemoryInfo u pageSizeKB st).totalMem = u.npages * pageSizeKB ∧
    (scanMemoryInfo u pageSizeKB st).buffersMem = u.filepages * pageSizeKB ∧
    (scanMemoryInfo u pageSizeKB st).cachedMem =
      (u.anonpages + u.filepages + u.execpages) * pageSizeKB ∧
    (scanMemoryInfo u pageSizeKB st).usedMem =
      (scanMemoryInfo u pageSizeKB st).totalMem - u.free * pageSizeKB -
        u.paging * pageSizeKB + (scanMemoryInfo u pageSizeKB st).buffersMem +
        (scanMemoryInfo u pageSizeKB st).cachedMem ∧
    (scanMemoryInfo u pageSizeKB st).totalSwap = u.swpages * pageSizeKB ∧
    (scanMemoryInfo u pageSizeKB st).usedSwap = u.swpginuse * pageSizeKB := by
  refine ⟨rfl, rfl, rfl, ?_, rfl, rfl⟩
  simp only [scanMemoryInfo]
  ring

/-- The `HW_NCPU` handling of `ProcessList_new`: a failed query (`none`)
or a reported count below 1 forces the core count to 1. -/
def cpuCountInit (q : Option Nat) : Nat :=
  match q with
  | none => 1
  | some c => if c < 1 then 1 else c

/-- Per-core slot initialisation of `ProcessList_new`: calloc-zeroed
`CPUData` with `totalTime` and `totalPeriod` set to 1. -/
def initCPUData : CPUData :=
  { totalTime := 1, totalPeriod := 1 }

/-- The sampler state assembled by a successful `ProcessList_new`. -/
structure InitState where
  cpuCount : Nat
  fscale : ℤ
  pageSize : ℤ
  pageSizeKB : ℤ
  cpus : CPUData × List CPUData
deriving DecidableEq

/-- `ProcessList_new`: the core count query degrades to 1, while a failed
`KERN_FSCALE` query, a failed page-size query (-1) or a failed
`kvm_openfiles` are fatal; `cpuCount + 1` slots are allocated, all
initialised to `initCPUData`. -/
def ProcessList_new (cpuQ : Option Nat) (fscaleQ : Option ℤ) (pageQ : ℤ)
    (kvmOk : Bool) : Except Unit InitState :=
  let n := cpuCountInit cpuQ
  match fscaleQ with
  | none => Except.error ()
  | some f =>
    if pageQ = -1 then Except.error ()
    else if kvmOk then
      Except.ok
        { cpuCount := n
          fscale := f
          pageSize := pageQ
          pageSizeKB := pageQ / 1024
          cpus := (initCPUData, List.replicate n initCPUData) }
    else Except.error ()

/-- C10: if the core-count query fails or reports fewer than one core the
sampler proceeds with the count forced to 1 — so the count is always at
least 1 — while scale-factor, page-size and kernel-data-source failures
are fatal. -/
theorem c10_cpu_count_fallback (cpuQ : Option Nat) (f : ℤ) (pageQ : ℤ) :
    1 ≤ cpuCountInit cpuQ ∧
    cpuCountInit none = 1 ∧
    cpuCountInit (some 0) = 1 ∧
    (pageQ ≠ -1 →
      ProcessList_new cpuQ (some f) pageQ true =
        Except.ok
          { cpuCount := cpuCountInit cpuQ
            fscale := f
            pageSize := pageQ
            pageSizeKB := pageQ / 1024
            cpus := (initCPUData, List.replicate (cpuCountInit cpuQ) initCPUData) }) ∧
    ProcessList_new cpuQ none pageQ true = Except.error () ∧
    ProcessList_new cpuQ (some f) (-1) true = Except.error () ∧
    ProcessList_new cpuQ (some f) pageQ false = Except.error () := by
  refine ⟨?_, rfl, rfl, ?_, rfl, ?_, ?_⟩
  · cases cpuQ with
    | none => exact le_refl 1
    | some c =>
      simp only [cpuCountInit]
      split <;> omega
  · intro h
    simp [ProcessList_new, h]
  · rfl
  · simp only [ProcessList_new]
    split
    · rfl
    · rfl

theorem c10_cpu_count_fallback_witness :
    ProcessList_new none (some 256) 4096 true =
      Except.ok
        { cpuCount := 1
          fscale := 256
          pageSize := 4096
          pageSizeKB := 4
          cpus := (initCPUData, List.replicate 1 initCPUData) } := by
  have h := (c10_cpu_count_fallback none 256 4096).2.2.2.1 (by decide)
  rw [h]
  norm_num [cpuCountInit]
